import Mathlib

/-!
Verification of the streaming completion relay of TeaTreeChat
(backend/app/services/openrouter.py and backend/app/api/routes/chat.py).

Text is modelled as `List Char` (Python `str`), JSON chunk objects as
structured records carrying exactly the fields the code reads, and the
async generators as functions from their inputs to the list of values
they yield.
-/

namespace TeaTree

/-- Python strings are modelled as lists of characters. -/
abbrev Text := List Char

/-- Python `s.strip()`: whitespace removed from both ends. -/
def pyStrip (s : Text) : Text :=
  ((s.dropWhile Char.isWhitespace).reverse.dropWhile Char.isWhitespace).reverse

/-- Python `s[-i:]` for `i > 0`: the last `i` elements (all of `s` when
`i ≥ len(s)`).  The code only uses it with `i ≥ 3`. -/
def takeLast (l : List α) (i : Nat) : List α := l.drop (l.length - i)

/-- Python `range(start, 2, -1)`: the list `[start, start-1, ..., 3]`,
empty when `start ≤ 2`. -/
def pyRangeDown : Nat → List Nat
  | 0 => []
  | n + 1 => if n + 1 ≤ 2 then [] else (n + 1) :: pyRangeDown n

/-- The `delta` member of a provider chunk's choice; `content = none`
models an absent `content` key. -/
structure DeltaPart where
  content : Option Text
deriving DecidableEq, Repr

/-- The `message` member of a chunk's choice (full-message shape). -/
structure MessagePart where
  content : Option Text
deriving DecidableEq, Repr

/-- One element of a chunk's `choices` array; a `none` field models the
absence of that key in the JSON object. -/
structure ChunkChoice where
  delta : Option DeltaPart
  message : Option MessagePart
deriving DecidableEq, Repr

/-- A decoded provider chunk object (the dictionaries produced by
`json.loads` and re-yielded by `generate_chat_completion`); only the keys
the code reads are modelled, `none` meaning the key is absent. -/
structure ChunkData where
  id : Option Text
  model : Option Text
  choices : Option (List ChunkChoice)
deriving DecidableEq, Repr

/-- The mutable state of `DuplicateContentTracker` (chat.py lines
540-545): `accumulated_content` starts `""` and `last_chunks` `[]`. -/
structure DuplicateContentTracker where
  accumulated_content : Text
  last_chunks : List Text
deriving DecidableEq, Repr

/-- `DuplicateContentTracker.__init__`. -/
def initTracker : DuplicateContentTracker := ⟨[], []⟩

/-- `self.max_chunks_to_track = 5`. -/
def max_chunks_to_track : Nat := 5

/-- Lines 564-566: `if len(self.accumulated_content) > 10000:
self.accumulated_content = self.accumulated_content[-5000:]`. -/
def truncAcc (acc : Text) : Text :=
  if 10000 < acc.length then takeLast acc 5000 else acc

/-- The inner loop of lines 581-586: `for i in range(min(overlap_size,
20), 2, -1): if prev_chunk[-i:] == current_content[:i]: ...; break` —
the first (largest) `i` in `[min(min(len(prev), len(cur)), 20), ..., 3]`
where the last `i` characters of `prev` equal the first `i` of `cur`. -/
def findOverlap (prev_chunk current_content : Text) : Option Nat :=
  (pyRangeDown (min (min prev_chunk.length current_content.length) 20)).find?
    (fun i => takeLast prev_chunk i = current_content.take i)

/-- One iteration of the outer loop of lines 576-586: the trimmed text
this previous chunk assigns to `choice['delta']['content']`, or `none`
when it assigns nothing (guard at line 578 false, or no overlap found). -/
def overlapTrim (prev_chunk current_content : Text) : Option Text :=
  if 3 < prev_chunk.length ∧ 3 < current_content.length then
    (findOverlap prev_chunk current_content).map (current_content.drop ·)
  else none

/-- The whole overlap stage (lines 576-586): each previous chunk that
finds an overlap overwrites `choice['delta']['content']` (computed from
the unmodified `current_content` variable); the `break` leaves only the
inner loop, so the scan over `last_chunks` continues. -/
def overlapScan (last_chunks : List Text) (current_content : Text) : Text :=
  last_chunks.foldl
    (fun content prev_chunk => (overlapTrim prev_chunk current_content).getD content)
    current_content

/-- Lines 557-596 of `process_chunk`, from the point where
`current_content` has been read and found truthy: returns the updated
tracker state and the final value of `choice['delta']['content']`. -/
def process_content (self : DuplicateContentTracker) (current_content : Text) :
    DuplicateContentTracker × Text :=
  -- line 560: `if len(current_content.strip()) <= 1: return chunk_data`
  if (pyStrip current_content).length ≤ 1 then (self, current_content)
  else
    -- lines 564-566: truncation of the accumulated content
    let acc := truncAcc self.accumulated_content
    -- line 569: `if len(current_content) > 2 and current_content in
    -- self.accumulated_content:` — early return with content ""
    if 2 < current_content.length ∧ current_content <:+: acc then
      (⟨acc, self.last_chunks⟩, [])
    else
      -- lines 576-586: overlap scan, then lines 589-594: state update
      let content := overlapScan self.last_chunks current_content
      let lc := self.last_chunks ++ [current_content]
      (⟨acc ++ content, if max_chunks_to_track < lc.length then lc.tail else lc⟩,
       content)

/-- `DuplicateContentTracker.process_chunk` (lines 547-596): the guards of
lines 549-554 return the chunk unchanged; otherwise the content algorithm
runs and the chunk is returned with `choice['delta']['content']` replaced
by its result. -/
def process_chunk (self : DuplicateContentTracker) (chunk_data : ChunkData) :
    DuplicateContentTracker × ChunkData :=
  match chunk_data.choices with
  | none => (self, chunk_data)          -- `'choices' not in chunk_data`
  | some [] => (self, chunk_data)       -- `not chunk_data['choices']`
  | some (choice :: rest) =>
    match choice.delta with
    | none => (self, chunk_data)        -- `'delta' not in choice`
    | some d =>
      match d.content with
      | none => (self, chunk_data)      -- `'content' not in choice['delta']`
      | some current_content =>
        if current_content = [] then (self, chunk_data)  -- falsy content
        else
          let (self', content') := process_content self current_content
          (self',
           ⟨chunk_data.id, chunk_data.model,
            some ({ choice with delta := some ⟨some content'⟩ } :: rest)⟩)

/-! ## UpstreamStreamReader: `generate_chat_completion` (openrouter.py) -/

/-- The fields of the provider's non-200 JSON error body that lines
105-128 of openrouter.py read: `error.message`, `error.metadata.raw` and
`error.provider_error.message`; `provider_nonempty` is the Python
truthiness of the `provider_error` value (a non-empty dict). -/
structure ErrorBody where
  message : Option Text
  metadataRaw : Option Text
  provider_nonempty : Bool
  provider_message : Option Text
deriving DecidableEq, Repr

/-- Lines 107-128: the diagnostic extracted from the error body;
`parsed = none` models a `json.JSONDecodeError`/`AttributeError`, in
which case the raw body text is used. -/
def error_detail (parsed : Option ErrorBody) (raw_body : Text) : Text :=
  match parsed with
  | none => raw_body
  | some b =>
    let d := (b.message).getD "An unknown error occurred.".data
    let d := match b.metadataRaw with
      | some r => if r = [] then d else r
      | none => d
    if b.provider_nonempty then
      match b.provider_message with
      | some m => if m = [] then d else d ++ " (Provider: ".data ++ m ++ ")".data
      | none => d
    else d

/-- Decimal rendering of a number inside an f-string. -/
def natToText (n : Nat) : Text := (toString n).data

/-- Line 131: `error_to_raise = f"OpenRouter Error (HTTP
{response.status_code}): {error_detail}"`. -/
def error_to_raise (status_code : Nat) (parsed : Option ErrorBody) (raw_body : Text) :
    Text :=
  "OpenRouter Error (HTTP ".data ++ natToText status_code ++ "): ".data
    ++ error_detail parsed raw_body

/-- Lines 146-159: decode one `data: ` payload and decide what (if
anything) the reader yields for it.  `parse` stands for `json.loads`
restricted to the fields the code reads; `none` is a
`json.JSONDecodeError` (line 160: skipped).  A yield happens only when
the chunk has a non-empty `choices` whose first element has a `delta`
with truthy `content`; the yielded chunk is rewritten to the
full-message shape with a one-element `choices` list. -/
def extract_yield (parse : Text → Option ChunkData) (model payload : Text) :
    Option ChunkData :=
  match parse payload with
  | none => none
  | some chunk =>
    match chunk.choices with
    | some (choice :: _) =>
      match choice.delta with
      | some d =>
        match d.content with
        | some s =>
          if s = [] then none
          else some ⟨some ((chunk.id).getD []), some model,
                     some [⟨none, some ⟨some s⟩⟩]⟩
        | none => none
      | none => none
    | _ => none

/-- Lines 138-161: the loop over `response.aiter_lines()`.  Blank lines
and lines not starting with `"data: "` are skipped (line 139); the
payload `[DONE]` breaks out of the loop; otherwise the decoded yield (if
any) is emitted and the loop continues. -/
def stream_lines (parse : Text → Option ChunkData) (model : Text) :
    List Text → List ChunkData
  | [] => []
  | line :: rest =>
    if pyStrip line = [] ∨ ¬ ("data: ".data.isPrefixOf line) then
      stream_lines parse model rest
    else
      let payload := line.drop 6
      if payload = "[DONE]".data then []
      else
        match extract_yield parse model payload with
        | none => stream_lines parse model rest
        | some c => c :: stream_lines parse model rest

/-- The upstream HTTP response to the streaming POST: either a 200
response with a body of newline-delimited lines, or an initial non-200
status with an error body (parsed and raw forms). -/
inductive UpstreamResponse
  | ok (lines : List Text)
  | rejected (status_code : Nat) (parsed : Option ErrorBody) (raw_body : Text)

/-- `generate_chat_completion` (openrouter.py lines 102-161) as a whole:
a non-200 initial status raises `HTTPException(500, error_to_raise)`
before anything is yielded (modelled as `.error detail`); a 200 response
yields the chunks decoded from its lines. -/
def generate_chat_completion (parse : Text → Option ChunkData) (model : Text) :
    UpstreamResponse → Except Text (List ChunkData)
  | .ok lines => .ok (stream_lines parse model lines)
  | .rejected status parsed raw => .error (error_to_raise status parsed raw)

/-! ## RelaySession: `stream_chat_completion` (chat.py lines 654-702) -/

/-- One outbound SSE event: the `event` name and the dictionary passed to
`json.dumps` as its `data`. -/
structure Event where
  event : String
  data : List (String × Text)
deriving DecidableEq, Repr

/-- Lines 665-669: content extraction in the relay loop — the `delta`
shape is consulted first (`"delta" in choice and "content" in
choice["delta"]`), then the `message` shape; `""` when neither has a
`content` key. -/
def relay_content (choice : ChunkChoice) : Text :=
  match choice.delta with
  | some d =>
    match d.content with
    | some s => s
    | none =>
      match choice.message with
      | some m => (m.content).getD []
      | none => []
  | none =>
    match choice.message with
    | some m => (m.content).getD []
    | none => []

/-- Lines 662-677: what the relay loop emits for one upstream chunk — a
`message` event carrying the content, or nothing when the chunk has no
choices or the content is falsy. -/
def relay_event (chunk : ChunkData) : Option Event :=
  match chunk.choices with
  | some (choice :: _) =>
    let content := relay_content choice
    if content = [] then none
    else some ⟨"message", [("content", content)]⟩
  | _ => none

/-- How one relay session ends: the upstream generator is exhausted
normally, raises an exception whose message is `msg` (lines 693-702), or
an `asyncio.CancelledError` reaches the loop (lines 684-692). -/
inductive SessionOutcome
  | completed
  | failed (msg : Text)
  | cancelled
deriving DecidableEq, Repr

/-- The single terminal event each outcome yields: `done` with
`{"status": "complete"}` (lines 679-682), or `error` with `{"error":
str(e)}` (lines 697-702), or `error` with `{"error": "Request was
cancelled"}` (lines 686-691). -/
def terminal_event : SessionOutcome → Event
  | .completed => ⟨"done", [("status", "complete".data)]⟩
  | .failed msg => ⟨"error", [("error", msg)]⟩
  | .cancelled => ⟨"error", [("error", "Request was cancelled".data)]⟩

/-- The event sequence of one relay session whose upstream delivered
`chunks` before ending with `outcome`: the per-chunk `message` events in
order, then exactly the one terminal event. -/
def session_events (chunks : List ChunkData) (outcome : SessionOutcome) :
    List Event :=
  chunks.filterMap relay_event ++ [terminal_event outcome]

/-- Starlette's `HTTPException.__str__` is `f"{status_code}: {detail}"`;
this is the `str(e)` of line 700 for the exceptions
`generate_chat_completion` raises (all `HTTPException(status_code=500)`). -/
def http_exception_str (status_code : Nat) (detail : Text) : Text :=
  natToText status_code ++ ": ".data ++ detail

/-- `stream_chat_completion` end to end: the upstream response is read
through `generate_chat_completion`; a raised `HTTPException` is caught by
the outer `except Exception` and becomes the terminal `error` event;
otherwise the decoded chunks are relayed, ending with `done`, or — when
the client cancels after `n` chunks have been consumed — with the
cancellation `error` event. -/
def stream_chat_completion (parse : Text → Option ChunkData) (model : Text)
    (resp : UpstreamResponse) (cancelAfter : Option Nat) : List Event :=
  match generate_chat_completion parse model resp with
  | .error detail => session_events [] (.failed (http_exception_str 500 detail))
  | .ok chunks =>
    match cancelAfter with
    | none => session_events chunks .completed
    | some n => session_events (chunks.take n) .cancelled

/-! ## Auxiliary definitions used by the statements below -/

/-- Claim C2's version of the overlap stage, modelled from the spec's
words: the scan over the stored previous fragments STOPS as soon as one
trim has been applied (at most one trim per fragment).  Stated only to be
compared with `overlapScan`, the loop the source actually runs. -/
def overlapScanClaimed : List Text → Text → Text
  | [], cur => cur
  | p :: rest, cur =>
    match overlapTrim p cur with
    | some t => t
    | none => overlapScanClaimed rest cur

/-- An event is terminal when it is a `done` or an `error` event. -/
def isTerminalEvent (e : Event) : Bool :=
  e.event == "done" || e.event == "error"

/-- A provider chunk in the incremental-delta shape, as `json.loads`
produces it from a well-formed streaming line. -/
def mkDeltaChunk (cid content : String) : ChunkData :=
  ⟨some cid.data, none, some [⟨some ⟨some content.data⟩, none⟩]⟩

/-- The decoded payloads of the C1 scenario: four delta chunks carrying
"The ", "quick ", "quick " (the duplicate) and "brown fox". -/
def c1Parse : Text → Option ChunkData := fun p =>
  if p = "p1".data then some (mkDeltaChunk "g1" "The ") else
  if p = "p2".data then some (mkDeltaChunk "g2" "quick ") else
  if p = "p3".data then some (mkDeltaChunk "g3" "quick ") else
  if p = "p4".data then some (mkDeltaChunk "g4" "brown fox") else none

/-- The upstream body of the C1 scenario: the four chunk lines followed
by the `data: [DONE]` sentinel. -/
def c1Lines : List Text :=
  ["data: p1".data, "data: p2".data, "data: p3".data, "data: p4".data,
   "data: [DONE]".data]

/-- A line the reader is specified to ignore: blank, or not prefixed
`"data: "`, or a `data: ` line whose payload is not the `[DONE]` sentinel
and fails JSON parsing. -/
def ignorable_line (parse : Text → Option ChunkData) (line : Text) : Prop :=
  pyStrip line = [] ∨ ¬ ("data: ".data.isPrefixOf line) ∨
    (line.drop 6 ≠ "[DONE]".data ∧ parse (line.drop 6) = none)

/-- A provider error body carrying only `error.message`. -/
def simpleErrorBody (m : Text) : Option ErrorBody :=
  some ⟨some m, none, false, none⟩

/-! ## Branch equations for `process_content` -/

theorem process_content_of_trivial {s : DuplicateContentTracker} {cur : Text}
    (h : (pyStrip cur).length ≤ 1) : process_content s cur = (s, cur) := by
  unfold process_content; rw [if_pos h]

theorem process_content_of_dup {s : DuplicateContentTracker} {cur : Text}
    (h1 : ¬ (pyStrip cur).length ≤ 1)
    (h2 : 2 < cur.length ∧ cur <:+: truncAcc s.accumulated_content) :
    process_content s cur = (⟨truncAcc s.accumulated_content, s.last_chunks⟩, []) := by
  unfold process_content
  rw [if_neg h1]
  simp only []
  rw [if_pos h2]

theorem process_content_of_new {s : DuplicateContentTracker} {cur : Text}
    (h1 : ¬ (pyStrip cur).length ≤ 1)
    (h2 : ¬ (2 < cur.length ∧ cur <:+: truncAcc s.accumulated_content)) :
    process_content s cur
      = (⟨truncAcc s.accumulated_content ++ overlapScan s.last_chunks cur,
          if max_chunks_to_track < (s.last_chunks ++ [cur]).length
          then (s.last_chunks ++ [cur]).tail else s.last_chunks ++ [cur]⟩,
         overlapScan s.last_chunks cur) := by
  unfold process_content
  rw [if_neg h1]
  simp only []
  rw [if_neg h2]

/-! ## Helper lemmas -/

theorem truncAcc_length_le (a : Text) : (truncAcc a).length ≤ a.length := by
  unfold truncAcc takeLast
  split
  · rw [List.length_drop]; omega
  · exact le_refl _

theorem truncAcc_length_le_10000 (a : Text) : (truncAcc a).length ≤ 10000 := by
  unfold truncAcc takeLast
  split
  next h => rw [List.length_drop]; omega
  next h => omega

theorem truncAcc_eq_self {a : Text} (h : a.length ≤ 10000) : truncAcc a = a := by
  unfold truncAcc; rw [if_neg (by omega)]

theorem suffix_takeLast {f a : Text} {k : Nat} (h : f <:+ a) (hk : f.length ≤ k) :
    f <:+ takeLast a k := by
  obtain ⟨u, rfl⟩ := h
  unfold takeLast
  rw [List.length_append, List.drop_append_eq_append_drop]
  have h0 : u.length + f.length - k - u.length = 0 := by omega
  rw [h0, List.drop_zero]
  exact List.suffix_append _ f

theorem suffix_truncAcc {f a : Text} (h : f <:+ a) (hf : f.length ≤ 5000) :
    f <:+ truncAcc a := by
  unfold truncAcc
  split
  · exact suffix_takeLast h (by omega)
  · exact h

theorem getLast?_cons_getD (b : α) (m : List α) :
    (b :: m).getLast? = some ((m.getLast?).getD b) := by
  induction m generalizing b with
  | nil => rfl
  | cons c m ih => rw [List.getLast?_cons_cons, ih c]; simp

theorem foldl_getD_eq (f : α → Option β) (l : List α) (a : β) :
    l.foldl (fun c p => (f p).getD c) a = ((l.filterMap f).getLast?).getD a := by
  induction l generalizing a with
  | nil => rfl
  | cons x l ih =>
    rw [List.foldl_cons, ih, List.filterMap_cons]
    cases hfx : f x with
    | none => simp
    | some b => simp [getLast?_cons_getD]

theorem overlapTrim_suffix {p cur t : Text} (h : overlapTrim p cur = some t) :
    t <:+ cur := by
  unfold overlapTrim at h
  split at h
  · cases hfo : findOverlap p cur with
    | none => rw [hfo] at h; simp at h
    | some i =>
      rw [hfo] at h
      obtain rfl : cur.drop i = t := by simpa using h
      exact List.drop_suffix i cur
  · simp at h

theorem overlapScan_suffix (lc : List Text) (cur : Text) :
    overlapScan lc cur <:+ cur := by
  unfold overlapScan
  rw [foldl_getD_eq]
  cases hl : (lc.filterMap (fun p => overlapTrim p cur)).getLast? with
  | none => exact List.suffix_refl cur
  | some t =>
    simp only [Option.getD_some]
    have hmem : t ∈ lc.filterMap (fun p => overlapTrim p cur) := by
      obtain ⟨ys, hys⟩ := List.getLast?_eq_some_iff.mp hl
      rw [hys]
      exact List.mem_append_right _ (by simp)
    obtain ⟨p, _, hp⟩ := List.mem_filterMap.mp hmem
    exact overlapTrim_suffix hp

theorem overlapScan_of_short {lc : List Text} {cur : Text} (h : ¬ 3 < cur.length) :
    overlapScan lc cur = cur := by
  unfold overlapScan
  rw [foldl_getD_eq]
  have hnil : lc.filterMap (fun p => overlapTrim p cur) = [] := by
    rw [List.filterMap_eq_nil_iff]
    intro p _
    unfold overlapTrim
    rw [if_neg (by tauto)]
  rw [hnil]
  rfl

theorem mem_pyRangeDown {n j : Nat} : j ∈ pyRangeDown n ↔ 3 ≤ j ∧ j ≤ n := by
  induction n with
  | zero => simp [pyRangeDown]; omega
  | succ n ih =>
    unfold pyRangeDown
    split
    next h => simp; omega
    next h => rw [List.mem_cons, ih]; omega

theorem pyRangeDown_sorted (n : Nat) : (pyRangeDown n).Pairwise (fun a b => b < a) := by
  induction n with
  | zero => exact List.Pairwise.nil
  | succ n ih =>
    unfold pyRangeDown
    split
    · exact List.Pairwise.nil
    · rw [List.pairwise_cons]
      exact ⟨fun j hj => by have := mem_pyRangeDown.mp hj; omega, ih⟩

theorem find?_desc {p : Nat → Bool} {l : List Nat} (hl : l.Pairwise (fun a b => b < a))
    {k : Nat} (h : l.find? p = some k) :
    p k = true ∧ ∀ j ∈ l, k < j → p j = false := by
  induction l with
  | nil => simp at h
  | cons x xs ih =>
    rw [List.pairwise_cons] at hl
    cases hpx : p x with
    | true =>
      simp only [List.find?_cons, hpx] at h
      obtain rfl : x = k := by simpa using h
      refine ⟨hpx, fun j hj hkj => ?_⟩
      rcases List.mem_cons.mp hj with rfl | hj'
      · omega
      · have := hl.1 j hj'
        exact absurd hkj (by omega)
    | false =>
      simp only [List.find?_cons, hpx] at h
      obtain ⟨pk, rest⟩ := ih hl.2 h
      refine ⟨pk, fun j hj hkj => ?_⟩
      rcases List.mem_cons.mp hj with rfl | hj'
      · exact hpx
      · exact rest j hj' hkj

theorem findOverlap_spec {prev cur : Text} {k : Nat} (h : findOverlap prev cur = some k) :
    takeLast prev k = cur.take k ∧ 3 ≤ k ∧ k ≤ min (min prev.length cur.length) 20 ∧
      ∀ j, k < j → j ≤ min (min prev.length cur.length) 20 →
        takeLast prev j ≠ cur.take j := by
  unfold findOverlap at h
  have hmem := List.mem_of_find?_eq_some h
  have hb := mem_pyRangeDown.mp hmem
  have hd := find?_desc (pyRangeDown_sorted _) h
  refine ⟨by simpa using hd.1, hb.1, hb.2, ?_⟩
  intro j hkj hjle heq
  have hjm : j ∈ pyRangeDown (min (min prev.length cur.length) 20) :=
    mem_pyRangeDown.mpr ⟨by omega, hjle⟩
  have hfalse := hd.2 j hjm hkj
  simp [heq] at hfalse

theorem pyRangeDown_cons {n : Nat} (h : 3 ≤ n) :
    pyRangeDown n = n :: pyRangeDown (n - 1) := by
  cases n with
  | zero => omega
  | succ m =>
    have he : pyRangeDown (m + 1) = if m + 1 ≤ 2 then [] else (m + 1) :: pyRangeDown m := rfl
    rw [he, if_neg (by omega)]
    simp

theorem findOverlap_self {f : Text} (h3 : 3 ≤ f.length) (h20 : f.length ≤ 20) :
    findOverlap f f = some f.length := by
  unfold findOverlap
  rw [min_self, min_eq_left h20, pyRangeDown_cons h3, List.find?_cons]
  have heq : takeLast f f.length = f.take f.length := by
    unfold takeLast; rw [Nat.sub_self, List.drop_zero, List.take_length]
  simp [heq]

theorem filterMap_getLast?_some (g : α → Option β) {l : List α} {x : α} {y : β}
    (hl : l.getLast? = some x) (hg : g x = some y) :
    (l.filterMap g).getLast? = some y := by
  obtain ⟨ys, rfl⟩ := List.getLast?_eq_some_iff.mp hl
  rw [List.filterMap_append]
  have hone : List.filterMap g [x] = [y] := by simp [List.filterMap_cons, hg]
  rw [hone, List.getLast?_concat]

theorem evict_getLast? (l : List Text) (f : Text) :
    (if max_chunks_to_track < (l ++ [f]).length then (l ++ [f]).tail
     else l ++ [f]).getLast? = some f := by
  split
  next h =>
    have hne : l ≠ [] := by
      intro he
      subst he
      simp [max_chunks_to_track] at h
    rw [List.tail_append_of_ne_nil hne, List.getLast?_concat]
  next h => exact List.getLast?_concat l

theorem overlapScan_getLast_self {lc : List Text} {f : Text}
    (hlast : lc.getLast? = some f) (h3 : 3 < f.length) (h20 : f.length ≤ 20) :
    overlapScan lc f = [] := by
  unfold overlapScan
  rw [foldl_getD_eq]
  have htrim : overlapTrim f f = some [] := by
    unfold overlapTrim
    rw [if_pos ⟨h3, h3⟩, findOverlap_self (by omega) h20]
    simp [List.drop_length]
  rw [filterMap_getLast?_some (fun prev_chunk => overlapTrim prev_chunk f) hlast htrim]
  rfl

theorem dropWhile_ws_replicate (n : Nat) :
    (List.replicate n 'a').dropWhile Char.isWhitespace = List.replicate n 'a' := by
  cases n with
  | zero => rfl
  | succ m =>
    rw [List.replicate_succ, List.dropWhile_cons, if_neg (by decide)]

theorem pyStrip_replicate (n : Nat) :
    pyStrip (List.replicate n 'a') = List.replicate n 'a' := by
  unfold pyStrip
  rw [dropWhile_ws_replicate, List.reverse_replicate, dropWhile_ws_replicate,
      List.reverse_replicate]

theorem stream_lines_cons (parse : Text → Option ChunkData) (model line : Text)
    (rest : List Text) :
    stream_lines parse model (line :: rest)
      = if pyStrip line = [] ∨ ¬ ("data: ".data.isPrefixOf line) then
          stream_lines parse model rest
        else if line.drop 6 = "[DONE]".data then []
        else
          match extract_yield parse model (line.drop 6) with
          | none => stream_lines parse model rest
          | some c => c :: stream_lines parse model rest := rfl

theorem relay_event_cons (choice : ChunkChoice) (rest : List ChunkChoice)
    (cid model : Option Text) :
    relay_event ⟨cid, model, some (choice :: rest)⟩
      = if relay_content choice = [] then none
        else some ⟨"message", [("content", relay_content choice)]⟩ := rfl

theorem relay_event_message {c : ChunkData} {e : Event}
    (h : relay_event c = some e) : e.event = "message" := by
  obtain ⟨cid, model, choices⟩ := c
  match choices with
  | none => exact absurd h (by simp [relay_event])
  | some [] => exact absurd h (by simp [relay_event])
  | some (choice :: rest) =>
    rw [relay_event_cons] at h
    split at h
    · exact absurd h (by simp)
    · obtain rfl := Option.some.inj h
      rfl

theorem extract_yield_shape {parse : Text → Option ChunkData} {model payload : Text}
    {c : ChunkData} (h : extract_yield parse model payload = some c) :
    ∃ s : Text, s ≠ [] ∧ c.choices = some [⟨none, some ⟨some s⟩⟩] := by
  unfold extract_yield at h
  split at h
  · exact absurd h (by simp)
  · split at h
    · split at h
      · split at h
        · split at h
          · exact absurd h (by simp)
          · next s hs _ =>
            obtain rfl := Option.some.inj h
            exact ⟨s, by assumption, rfl⟩
        · exact absurd h (by simp)
      · exact absurd h (by simp)
    · exact absurd h (by simp)

/-! ## The claims -/

/-- Claim C3, counterexample: `accumulated_content` CAN exceed 10,000
characters at rest between fragment-processing calls — one fragment of
10,001 characters leaves it at length 10,001, because the truncation of
lines 564-566 runs at the START of the next call, not at the end of the
current one. -/
theorem c3_counterexample :
    10000 < ((process_content initTracker
        (List.replicate 10001 'a')).1.accumulated_content).length := by
  have h1 : ¬ (pyStrip (List.replicate 10001 'a')).length ≤ 1 := by
    rw [pyStrip_replicate, List.length_replicate]
    omega
  have hT : truncAcc initTracker.accumulated_content = [] := rfl
  have h2 : ¬ (2 < (List.replicate 10001 'a' : Text).length ∧
      List.replicate 10001 'a' <:+: truncAcc initTracker.accumulated_content) := by
    rintro ⟨-, hinf⟩
    rw [hT] at hinf
    have hnil := List.eq_nil_of_infix_nil hinf
    have hlen := congrArg List.length hnil
    rw [List.length_replicate] at hlen
    simp at hlen
  rw [process_content_of_new h1 h2]
  show 10000 < (truncAcc initTracker.accumulated_content
      ++ overlapScan initTracker.last_chunks (List.replicate 10001 'a')).length
  rw [List.length_append]
  have hscan : overlapScan initTracker.last_chunks (List.replicate 10001 'a')
      = List.replicate 10001 'a' := rfl
  rw [hscan, List.length_replicate]
  omega

/-- Claim C9: for every fragment whose trimmed text has length at most 1,
the tracker passes the fragment through with its text unchanged and
leaves the entire tracker state (`accumulated_content` and `last_chunks`)
unmodified. -/
theorem c9_triviality_filter_frame (s : DuplicateContentTracker) (cur : Text)
    (h : (pyStrip cur).length ≤ 1) :
    process_content s cur = (s, cur) :=
  process_content_of_trivial h

/-- Claim C9, witness: the theorem applied at the fragment "a". -/
theorem c9_witness :
    (pyStrip "a".data).length ≤ 1 ∧
      process_content initTracker "a".data = (initTracker, "a".data) :=
  ⟨by decide, c9_triviality_filter_frame initTracker "a".data (by decide)⟩

/-- Claim C2, counterexample: the scan over previous fragments does NOT
stop once a trim has been applied.  With stored fragments "Xabcd" and
"YYabc", the incoming fragment "abcdef" is first trimmed by "Xabcd"
(overlap 4, which would give "ef") but the scan continues and "YYabc"
(overlap 3) overwrites the result, so the tracker emits "def", not the
"ef" the claim's stop-after-first-trim algorithm predicts. -/
theorem c2_counterexample :
    (process_content (process_content (process_content initTracker
        "Xabcd".data).1 "YYabc".data).1 "abcdef".data).2 = "def".data ∧
    overlapScanClaimed (process_content (process_content initTracker
        "Xabcd".data).1 "YYabc".data).1.last_chunks "abcdef".data = "ef".data ∧
    ("def".data : Text) ≠ "ef".data := by decide

/-- Claim C2, amended: (1) the overlap stage scans ALL stored previous
fragments; each matching one overwrites the trim (computed from the
original fragment text), so the final text is the one assigned by the
LAST matching previous fragment, the original text if none matches;
(2) per previous fragment (both lengths > 3) the searched overlap length
is maximal: `findOverlap` returns a `k` with `3 ≤ k ≤ min(min(len prev,
len cur), 20)` such that the last `k` characters of the previous fragment
equal the first `k` of the current one and no larger length in range
does. -/
theorem c2_overlap_scan_characterized :
    (∀ (lc : List Text) (cur : Text),
        overlapScan lc cur
          = ((lc.filterMap (fun p => overlapTrim p cur)).getLast?).getD cur) ∧
    (∀ (prev cur : Text) (k : Nat), findOverlap prev cur = some k →
        takeLast prev k = cur.take k ∧ 3 ≤ k ∧
          k ≤ min (min prev.length cur.length) 20 ∧
          ∀ j, k < j → j ≤ min (min prev.length cur.length) 20 →
            takeLast prev j ≠ cur.take j) :=
  ⟨fun lc cur => foldl_getD_eq (fun p => overlapTrim p cur) lc cur,
   fun _ _ _ h => findOverlap_spec h⟩

/-- Claim C2, witness: the maximality part applied at prev "Xabcd",
cur "abcdef", where `findOverlap` returns 4. -/
theorem c2_witness :
    takeLast "Xabcd".data 4 = "abcdef".data.take 4 ∧
      takeLast "Xabcd".data 5 ≠ "abcdef".data.take 5 :=
  ⟨(c2_overlap_scan_characterized.2 "Xabcd".data "abcdef".data 4 (by decide)).1,
   (c2_overlap_scan_characterized.2 "Xabcd".data "abcdef".data 4 (by decide)).2.2.2 5
     (by omega) (by decide)⟩

/-- Claim C3, amended: after any fragment-processing call the length of
`accumulated_content` is at most the maximum of its previous length and
10,000 plus the fragment's length (truncation to the trailing 5,000
characters happens at the start of the next call that passes the
triviality filter, so the at-rest bound is 10,000 + increment, not
10,000). -/
theorem c3_accumulated_length_bound (s : DuplicateContentTracker) (cur : Text) :
    ((process_content s cur).1.accumulated_content).length
      ≤ max s.accumulated_content.length (10000 + cur.length) := by
  by_cases h1 : (pyStrip cur).length ≤ 1
  · rw [process_content_of_trivial h1]
    exact le_max_left _ _
  · by_cases h2 : 2 < cur.length ∧ cur <:+: truncAcc s.accumulated_content
    · rw [process_content_of_dup h1 h2]
      exact le_trans (truncAcc_length_le _) (le_max_left _ _)
    · rw [process_content_of_new h1 h2]
      have ha := truncAcc_length_le_10000 s.accumulated_content
      have hb := List.IsSuffix.length_le (overlapScan_suffix s.last_chunks cur)
      have hc : (truncAcc s.accumulated_content
            ++ overlapScan s.last_chunks cur).length ≤ 10000 + cur.length := by
        rw [List.length_append]; omega
      exact le_trans hc (le_max_right _ _)

/-- Claim C4, counterexample: a fragment fully suppressed by the
exact-duplicate filter does NOT get the state update — line 573 returns
before lines 589-594 run.  Feeding "abcd" twice leaves `last_chunks` with
one entry, not the two entries the claim predicts. -/
theorem c4_counterexample :
    1 < (pyStrip "abcd".data).length ∧
    (process_content (process_content initTracker "abcd".data).1
        "abcd".data).1.last_chunks = ["abcd".data] ∧
    (["abcd".data] : List Text).length ≠ 2 := by decide

/-- Claim C4, amended: for every fragment that passes the triviality
filter and is NOT suppressed by the exact-duplicate filter (which returns
early, skipping the state update), the original untrimmed fragment text
is appended to `last_chunks` with the oldest entry evicted beyond 5, so
the window equals the last 5 of the old window plus the new raw text, and
never exceeds 5 entries. -/
theorem c4_window_update (s : DuplicateContentTracker) (cur : Text)
    (h1 : ¬ (pyStrip cur).length ≤ 1)
    (h2 : ¬ (2 < cur.length ∧ cur <:+: truncAcc s.accumulated_content))
    (h5 : s.last_chunks.length ≤ max_chunks_to_track) :
    (process_content s cur).1.last_chunks
        = takeLast (s.last_chunks ++ [cur]) max_chunks_to_track ∧
      (process_content s cur).1.last_chunks.length ≤ max_chunks_to_track := by
  rw [process_content_of_new h1 h2]
  have heq : (if max_chunks_to_track < (s.last_chunks ++ [cur]).length
        then (s.last_chunks ++ [cur]).tail else s.last_chunks ++ [cur])
      = takeLast (s.last_chunks ++ [cur]) max_chunks_to_track := by
    unfold takeLast
    split
    next h =>
      have hl : (s.last_chunks ++ [cur]).length = max_chunks_to_track + 1 := by
        rw [List.length_append] at h ⊢
        simp only [List.length_cons, List.length_nil, max_chunks_to_track] at h h5 ⊢
        omega
      rw [hl, Nat.add_sub_cancel_left, List.drop_one]
    next h =>
      have h0 : (s.last_chunks ++ [cur]).length - max_chunks_to_track = 0 := by
        omega
      rw [h0, List.drop_zero]
  refine ⟨heq, ?_⟩
  rw [heq]
  unfold takeLast
  rw [List.length_drop]
  simp only [max_chunks_to_track]
  omega

/-- Claim C4, witness: the theorem applied at the empty tracker and the
fragment "abcd". -/
theorem c4_witness :
    (¬ (pyStrip "abcd".data).length ≤ 1) ∧
      (process_content initTracker "abcd".data).1.last_chunks
          = takeLast (initTracker.last_chunks ++ ["abcd".data]) max_chunks_to_track ∧
      (process_content initTracker "abcd".data).1.last_chunks.length
          ≤ max_chunks_to_track :=
  ⟨by decide,
   c4_window_update initTracker "abcd".data (by decide) (by decide) (by decide)⟩

/-- Claim C5, counterexample: the fragment "  a" has length 3 > 2, yet
fed twice in a row its second occurrence is emitted unchanged (non-empty)
— its trimmed length is 1, so the triviality filter passes it through
both times without recording any state. -/
theorem c5_counterexample :
    2 < ("  a".data : Text).length ∧
    (process_content (process_content initTracker "  a".data).1 "  a".data).2
      ≠ ([] : Text) := by decide

/-- Claim C5, amended: from any tracker state, a fragment of length
greater than 2 and at most 20 whose trimmed length exceeds 1, fed twice
in a row, has its second occurrence emitted empty.  (The length bounds
are forced: trimmed length ≤ 1 hits the triviality filter, and a
fragment longer than 20 characters can defeat both the substring filter
and the ≤ 20 overlap search, as the fragment
"456ABCDEFGHIJKLMNOPQRSTUV" does after "xx456" and "QQQQ".) -/
theorem c5_consecutive_duplicate_suppressed (s : DuplicateContentTracker) (f : Text)
    (h2 : 2 < f.length) (h20 : f.length ≤ 20) (hs : 1 < (pyStrip f).length) :
    (process_content (process_content s f).1 f).2 = [] := by
  have h1 : ¬ (pyStrip f).length ≤ 1 := by omega
  by_cases hdup : 2 < f.length ∧ f <:+: truncAcc s.accumulated_content
  · rw [process_content_of_dup h1 hdup]
    have hfix : truncAcc (truncAcc s.accumulated_content)
        = truncAcc s.accumulated_content :=
      truncAcc_eq_self (truncAcc_length_le_10000 _)
    have hdup2 : 2 < f.length ∧
        f <:+: truncAcc ((⟨truncAcc s.accumulated_content, s.last_chunks⟩ :
          DuplicateContentTracker).accumulated_content) := by
      refine ⟨h2, ?_⟩
      show f <:+: truncAcc (truncAcc s.accumulated_content)
      rw [hfix]
      exact hdup.2
    rw [process_content_of_dup h1 hdup2]
  · rw [process_content_of_new h1 hdup]
    by_cases hdup2 : 2 < f.length ∧
        f <:+: truncAcc ((⟨truncAcc s.accumulated_content
            ++ overlapScan s.last_chunks f,
          if max_chunks_to_track < (s.last_chunks ++ [f]).length
          then (s.last_chunks ++ [f]).tail else s.last_chunks ++ [f]⟩ :
            DuplicateContentTracker).accumulated_content)
    · rw [process_content_of_dup h1 hdup2]
    · have h3 : 3 < f.length := by
        by_contra hle
        apply hdup2
        refine ⟨h2, ?_⟩
        show f <:+: truncAcc (truncAcc s.accumulated_content
            ++ overlapScan s.last_chunks f)
        rw [overlapScan_of_short hle]
        exact List.IsSuffix.isInfix
          (suffix_truncAcc (List.suffix_append _ f) (by omega))
      rw [process_content_of_new h1 hdup2]
      exact overlapScan_getLast_self (evict_getLast? s.last_chunks f) h3 h20

/-- Claim C5, witness: the theorem applied at the empty tracker and the
fragment "abcd". -/
theorem c5_witness :
    2 < ("abcd".data : Text).length ∧ ("abcd".data : Text).length ≤ 20 ∧
      1 < (pyStrip "abcd".data).length ∧
      (process_content (process_content initTracker "abcd".data).1 "abcd".data).2
        = [] :=
  ⟨by decide, by decide, by decide,
   c5_consecutive_duplicate_suppressed initTracker "abcd".data
     (by decide) (by decide) (by decide)⟩

/-- Claim C7: for every session outcome (normal completion, mid-stream
upstream error, mid-stream client cancellation) the outbound event stream
contains exactly one terminal event (`done` or `error`, never both), it
is the last event, and no event of any kind follows it. -/
theorem c7_terminal_uniqueness (chunks : List ChunkData) (outcome : SessionOutcome) :
    (session_events chunks outcome).countP isTerminalEvent = 1 ∧
    (session_events chunks outcome).getLast? = some (terminal_event outcome) ∧
    ∀ e ∈ (session_events chunks outcome).dropLast, isTerminalEvent e = false := by
  unfold session_events
  have hmsg : ∀ e ∈ chunks.filterMap relay_event, isTerminalEvent e = false := by
    intro e he
    obtain ⟨c, -, hc⟩ := List.mem_filterMap.mp he
    have hev := relay_event_message hc
    simp [isTerminalEvent, hev]
  refine ⟨?_, List.getLast?_concat _, ?_⟩
  · rw [List.countP_append]
    have h0 : (chunks.filterMap relay_event).countP isTerminalEvent = 0 :=
      List.countP_eq_zero.mpr (by intro a ha; simp [hmsg a ha])
    have ht : isTerminalEvent (terminal_event outcome) = true := by
      cases outcome <;> rfl
    rw [h0, List.countP_cons, List.countP_nil, ht]
    simp
  · rw [List.dropLast_concat]
    exact hmsg

/-- Claim C7, witness: the theorem applied to the empty completed
session. -/
theorem c7_witness :
    (session_events [] SessionOutcome.completed).countP isTerminalEvent = 1 :=
  (c7_terminal_uniqueness [] SessionOutcome.completed).1

/-- Claim C10: every chunk yielded by the upstream reader has a
one-element `choices` list in full-message shape (no `delta` key, a
`message` with `content`) carrying a non-empty content string; chunks
with missing, empty or absent delta content are never yielded. -/
theorem c10_reader_output_shape (parse : Text → Option ChunkData) (model : Text)
    (lines : List Text) :
    ∀ c ∈ stream_lines parse model lines, ∃ s : Text,
      s ≠ [] ∧ c.choices = some [⟨none, some ⟨some s⟩⟩] := by
  induction lines with
  | nil => intro c hc; simp [stream_lines] at hc
  | cons l rest ih =>
    rw [stream_lines_cons]
    split
    · exact ih
    · split
      · intro c hc; simp at hc
      · cases hext : extract_yield parse model (l.drop 6) with
        | none => exact ih
        | some c0 =>
          intro c hc
          rcases List.mem_cons.mp hc with rfl | hmem
          · exact extract_yield_shape hext
          · exact ih c hmem

/-- Claim C10, witness: the theorem applied to the chunk the reader
yields for one well-formed delta line. -/
theorem c10_witness :
    (⟨some "i1".data, some "m".data,
        some [⟨none, some ⟨some "hi".data⟩⟩]⟩ : ChunkData)
      ∈ stream_lines
          (fun p => if p = "q".data then some (mkDeltaChunk "i1" "hi") else none)
          "m".data ["data: q".data] ∧
    ∃ s : Text, s ≠ [] ∧
      (⟨some "i1".data, some "m".data,
          some [⟨none, some ⟨some "hi".data⟩⟩]⟩ : ChunkData).choices
        = some [⟨none, some ⟨some s⟩⟩] :=
  ⟨by decide,
   c10_reader_output_shape
     (fun p => if p = "q".data then some (mkDeltaChunk "i1" "hi") else none)
     "m".data ["data: q".data] _ (by decide)⟩

/-- Claim C8: blank lines, lines not prefixed `"data: "`, and `data: `
lines whose payload fails JSON parsing (and is not the sentinel) are
skipped without affecting the rest of the stream — removing such a line
leaves the reader's output unchanged, so one malformed line never aborts
the stream; and the literal `data: [DONE]` line terminates the stream
normally. -/
theorem c8_wire_framing_tolerance :
    (∀ (parse : Text → Option ChunkData) (model : Text) (pre post : List Text)
        (junk : Text), ignorable_line parse junk →
        stream_lines parse model (pre ++ junk :: post)
          = stream_lines parse model (pre ++ post)) ∧
    (∀ (parse : Text → Option ChunkData) (model : Text) (post : List Text),
        stream_lines parse model ("data: [DONE]".data :: post) = []) := by
  constructor
  · intro parse model pre post junk hj
    induction pre with
    | nil =>
      rw [List.nil_append, List.nil_append, stream_lines_cons]
      by_cases h1 : pyStrip junk = [] ∨ ¬ ("data: ".data.isPrefixOf junk)
      · rw [if_pos h1]
      · rw [if_neg h1]
        have h3 : junk.drop 6 ≠ "[DONE]".data ∧ parse (junk.drop 6) = none := by
          unfold ignorable_line at hj
          rcases hj with hj | hj | hj
          · exact absurd (Or.inl hj) h1
          · exact absurd (Or.inr hj) h1
          · exact hj
        rw [if_neg h3.1]
        have hext : extract_yield parse model (junk.drop 6) = none := by
          unfold extract_yield
          rw [h3.2]
        rw [hext]
    | cons l pre ih =>
      rw [List.cons_append, List.cons_append, stream_lines_cons, stream_lines_cons]
      by_cases hc1 : pyStrip l = [] ∨ ¬ ("data: ".data.isPrefixOf l)
      · rw [if_pos hc1, if_pos hc1]
        exact ih
      · rw [if_neg hc1, if_neg hc1]
        by_cases hc2 : l.drop 6 = "[DONE]".data
        · rw [if_pos hc2, if_pos hc2]
        · rw [if_neg hc2, if_neg hc2]
          cases hext : extract_yield parse model (l.drop 6) with
          | none => exact ih
          | some c0 => rw [ih]
  · intro parse model post
    rw [stream_lines_cons, if_neg (by decide), if_pos (by decide)]

/-- Claim C8, witness: the theorem applied to a `data: ` line whose
payload fails parsing, inserted into the empty stream. -/
theorem c8_witness :
    stream_lines (fun _ => none) "m".data ([] ++ "data: zz".data :: [])
      = stream_lines (fun _ => none) "m".data ([] ++ []) :=
  c8_wire_framing_tolerance.1 (fun _ => none) "m".data [] [] "data: zz".data
    (Or.inr (Or.inr ⟨by decide, rfl⟩))

/-- Claim C6, counterexample: for an upstream HTTP 401 with body
`error.message = "invalid api key"`, the session emits exactly one
terminal `error` event, but its data payload is keyed `"error"`, not
`"detail"` as the claim states (chat.py line 700 builds
`json.dumps` of a dict with key "error"). -/
theorem c6_counterexample :
    stream_chat_completion (fun _ => none) "m".data
        (.rejected 401 (simpleErrorBody "invalid api key".data) "".data) none
      = [⟨"error", [("error",
          "500: OpenRouter Error (HTTP 401): invalid api key".data)]⟩] ∧
    (stream_chat_completion (fun _ => none) "m".data
        (.rejected 401 (simpleErrorBody "invalid api key".data) "".data) none).map
        (fun e => e.data.map Prod.fst) ≠ [[("detail" : String)]] := by decide

/-- Claim C6, amended: when the upstream provider responds with a non-200
initial status whose parsed body carries `error.message` (no metadata/
provider overrides), the session emits exactly one terminal SSE `error`
event whose data payload has the shape with key "error" (not "detail"),
and the diagnostic string contains the upstream error message verbatim
together with the original status code — never downgraded to a generic
message. -/
theorem c6_error_event_payload (parse : Text → Option ChunkData)
    (model raw : Text) (status : Nat) (m : Text) (cancelAfter : Option Nat) :
    stream_chat_completion parse model
        (.rejected status (simpleErrorBody m) raw) cancelAfter
      = [⟨"error", [("error", http_exception_str 500
          (error_to_raise status (simpleErrorBody m) raw))]⟩] ∧
    m <:+: http_exception_str 500 (error_to_raise status (simpleErrorBody m) raw) ∧
    natToText status
      <:+: http_exception_str 500 (error_to_raise status (simpleErrorBody m) raw) := by
  refine ⟨rfl, ?_, ?_⟩
  · have he : http_exception_str 500 (error_to_raise status (simpleErrorBody m) raw)
        = (natToText 500 ++ ": ".data ++ "OpenRouter Error (HTTP ".data
            ++ natToText status ++ "): ".data) ++ m := by
      simp [http_exception_str, error_to_raise, error_detail, simpleErrorBody,
        List.append_assoc]
    rw [he]
    exact List.IsSuffix.isInfix (List.suffix_append _ m)
  · have he : http_exception_str 500 (error_to_raise status (simpleErrorBody m) raw)
        = (natToText 500 ++ ": ".data ++ "OpenRouter Error (HTTP ".data)
            ++ natToText status ++ ("): ".data ++ m) := by
      simp [http_exception_str, error_to_raise, error_detail, simpleErrorBody,
        List.append_assoc]
    rw [he]
    exact List.infix_append _ _ _

/-- Claim C1 (code bug evaluation): on the upstream stream delivering
chunks "The ", "quick ", "quick ", "brown fox" followed by `data:
[DONE]`, the client observes FOUR `message` events — the duplicate
"quick " is forwarded, not suppressed — followed by exactly one `done`
event, because `stream_chat_completion` never invokes
`DuplicateContentTracker`.  The second conjunct shows the tracker, had it
been wired in on the delta text, would have emitted the second "quick "
empty, as the claim expects. -/
theorem c1_duplicate_forwarded :
    stream_chat_completion c1Parse "model-x".data (.ok c1Lines) none
      = [⟨"message", [("content", "The ".data)]⟩,
         ⟨"message", [("content", "quick ".data)]⟩,
         ⟨"message", [("content", "quick ".data)]⟩,
         ⟨"message", [("content", "brown fox".data)]⟩,
         ⟨"done", [("status", "complete".data)]⟩] ∧
    (process_content (process_content (process_content initTracker
        "The ".data).1 "quick ".data).1 "quick ".data).2 = [] := by decide

end TeaTree
